/-
Verification of the rebalance drift engine (models/rebalance.py).

The engine reads asset-allocation rows, computes per-asset-class drift
against fixed target weights, flags portfolios whose drift exceeds a
threshold, and writes one log row per flagged portfolio.  The embedding
below models monetary values and percentages as exact rationals, Python's
`round(x, 2)` as round-half-to-even at two decimals, and the database
reads/writes as explicit list-valued inputs/outputs.
-/
import Mathlib

set_option maxRecDepth 4000

attribute [local semireducible] Rat.add Rat.sub Rat.mul Rat.inv

/-- Floor of a rational, written so that the kernel can evaluate it. -/
def qfloor (q : ℚ) : ℤ := q.num / (q.den : ℤ)

lemma qfloor_eq_floor (q : ℚ) : qfloor q = ⌊q⌋ := by
  rw [qfloor, Rat.floor_def]

/-- Round to the nearest integer, ties to the even neighbour — the rounding
mode of Python's built-in `round`. -/
def roundHalfEven (q : ℚ) : ℤ :=
  if q - (qfloor q : ℚ) = 1/2 then
    (if qfloor q % 2 = 0 then qfloor q else qfloor q + 1)
  else qfloor (q + 1/2)

lemma roundHalfEven_intCast (n : ℤ) : roundHalfEven (n : ℚ) = n := by
  unfold roundHalfEven
  have h0 : qfloor (n : ℚ) = n := by rw [qfloor_eq_floor, Int.floor_intCast]
  rw [h0]
  have h1 : (n : ℚ) - n = 0 := by ring
  rw [h1, if_neg (by norm_num)]
  rw [qfloor_eq_floor]
  have h2 : ⌊(n : ℚ) + 1/2⌋ = n + ⌊(1/2 : ℚ)⌋ := Int.floor_int_add n (1/2)
  have h3 : ⌊(1/2 : ℚ)⌋ = 0 := by norm_num
  omega

lemma roundHalfEven_add_int (q : ℚ) (n : ℤ) (hn : n % 2 = 0) :
    roundHalfEven (q + n) = roundHalfEven q + n := by
  have hf : qfloor (q + n) = qfloor q + n := by
    rw [qfloor_eq_floor, qfloor_eq_floor, Int.floor_add_int]
  have hfr : (q + n) - (qfloor (q + n) : ℚ) = q - qfloor q := by
    rw [hf]; push_cast; ring
  unfold roundHalfEven
  rw [hfr, hf]
  by_cases h : q - (qfloor q : ℚ) = 1/2
  · rw [if_pos h, if_pos h]
    have hpar : (qfloor q + n) % 2 = qfloor q % 2 := by omega
    by_cases he : qfloor q % 2 = 0
    · rw [if_pos (by omega), if_pos he]
    · rw [if_neg (by omega), if_neg he]; ring
  · rw [if_neg h, if_neg h]
    have harr : q + n + 1/2 = (q + 1/2) + n := by ring
    rw [harr, qfloor_eq_floor, qfloor_eq_floor, Int.floor_add_int]

/-- Python's `round(x, 2)`: round-half-even at two decimal places. -/
def round2 (q : ℚ) : ℚ := (roundHalfEven (q * 100) : ℚ) / 100

lemma round2_sub_div100 (q : ℚ) (m : ℤ) (hm : m % 2 = 0) :
    round2 (q - (m : ℚ)/100) = round2 q - (m : ℚ)/100 := by
  unfold round2
  have h1 : (q - (m : ℚ)/100) * 100 = q * 100 + ((-m : ℤ) : ℚ) := by push_cast; ring
  rw [h1, roundHalfEven_add_int _ (-m) (by omega)]
  push_cast; ring

lemma round2_intCast_div (m : ℤ) : round2 ((m : ℚ)/100) = (m : ℚ)/100 := by
  unfold round2
  have h1 : ((m : ℚ)/100) * 100 = (m : ℚ) := by
    rw [div_mul_cancel₀]; norm_num
  rw [h1, roundHalfEven_intCast]

lemma round2_round2 (q : ℚ) : round2 (round2 q) = round2 q :=
  round2_intCast_div (roundHalfEven (q * 100))

lemma round2_zero : round2 0 = 0 := by
  have h := round2_intCast_div 0
  simpa using h

/-- One row of the `vw_asset_allocation` view (`_get_allocations`). -/
structure AllocationRow where
  portfolio_id : Nat
  portfolio_name : String
  asset_class : String
  class_value : ℚ
deriving DecidableEq, Repr, Inhabited

/-- `TARGET_ALLOCATIONS`: the seven canonical asset classes with their
target percentages, in the source's insertion order. -/
def TARGET_ALLOCATIONS : List (String × ℚ) :=
  [("Equity", 40), ("ETF", 25), ("Fixed Income", 15),
   ("Crypto", 5), ("Real Estate", 5), ("Commodity", 5), ("Other", 5)]

/-- `DRIFT_THRESHOLD`: default drift threshold in percentage points. -/
def DRIFT_THRESHOLD : ℚ := 10

/-- One row of the advisor-assignment query in `_get_advisor_map`, as the
cursor delivers it (the SQL filter and ORDER BY are stated as hypotheses
on theorems). -/
structure AdvisorRow where
  portfolio_id : Nat
  advisor_id : Nat
  is_primary : Bool
  end_date : Option Int
deriving DecidableEq, Repr, Inhabited

/-- The SQL WHERE clause `ca.end_date IS NULL OR ca.end_date >= CURDATE()`. -/
def isActive (today : Int) (r : AdvisorRow) : Bool :=
  match r.end_date with
  | none => true
  | some d => decide (today ≤ d)

/-- The SQL ORDER BY `p.portfolio_id, ca.is_primary DESC`: portfolio id
ascending, primary assignments first within a portfolio. -/
def advisorRowLE (a b : AdvisorRow) : Prop :=
  a.portfolio_id < b.portfolio_id ∨
    (a.portfolio_id = b.portfolio_id ∧ (b.is_primary = true → a.is_primary = true))

instance : DecidableRel advisorRowLE := fun a b => by
  unfold advisorRowLE; infer_instance

/-- The Python loop body of `_get_advisor_map`: first row per portfolio
wins, new portfolios are appended in encounter order. -/
def advisorMapStep (m : List (Nat × Nat)) (r : AdvisorRow) : List (Nat × Nat) :=
  if (m.find? (fun p => p.1 == r.portfolio_id)).isSome then m
  else m ++ [(r.portfolio_id, r.advisor_id)]

/-- `_get_advisor_map` minus the database call: fold the loop body over the
rows the query returned. -/
def get_advisor_map (rows : List AdvisorRow) : List (Nat × Nat) :=
  rows.foldl advisorMapStep []

/-- `advisor_map.get(portfolio_id, 1)`: look a portfolio up in the advisor
map, defaulting to advisor 1. -/
def lookupAdvisor (m : List (Nat × Nat)) (pid : Nat) : Nat :=
  match m.find? (fun p => p.1 == pid) with
  | none => 1
  | some p => p.2

/-- One entry of the per-portfolio `drifts` dict. -/
structure DriftEntry where
  target_pct : ℚ
  actual_pct : ℚ
  drift_pct : ℚ
deriving DecidableEq, Repr, Inhabited

/-- The pandas group for one portfolio id: the allocation rows with that id,
in input order. -/
def groupRows (rows : List AllocationRow) (pid : Nat) : List AllocationRow :=
  rows.filter (fun r => r.portfolio_id == pid)

/-- `group["class_value"].sum()`. -/
def totalValue (g : List AllocationRow) : ℚ :=
  (g.map (fun r => r.class_value)).sum

/-- `current.get(asset_class, 0.0)` where `current` is the dict
comprehension over the group's rows: a later row with the same asset class
overwrites an earlier one, so the last matching row wins. -/
def currentPct (g : List AllocationRow) (total : ℚ) (ac : String) : ℚ :=
  match (g.filter (fun r => r.asset_class == ac)).getLast? with
  | none => 0
  | some r => r.class_value / total * 100

/-- Total `class_value` carried by one asset class within a group (the view
delivers at most one row per (portfolio, class), so this equals the last
matching row's value; see `currentPct_eq_classSum`). -/
def classSum (g : List AllocationRow) (ac : String) : ℚ :=
  ((g.filter (fun r => r.asset_class == ac)).map (fun r => r.class_value)).sum

/-- The drift record stored for one asset class. -/
def driftEntryFor (g : List AllocationRow) (total : ℚ) (ac : String) (target : ℚ) :
    DriftEntry :=
  { target_pct := round2 target,
    actual_pct := round2 (currentPct g total ac),
    drift_pct := round2 (currentPct g total ac - target) }

/-- The `drifts` dict: one entry per class of `TARGET_ALLOCATIONS`, in that
order. -/
def computeDrifts (g : List AllocationRow) (total : ℚ) : List (String × DriftEntry) :=
  TARGET_ALLOCATIONS.map (fun p => (p.1, driftEntryFor g total p.1 p.2))

/-- The `flagged` dict: entries whose stored (rounded) drift strictly
exceeds the threshold in absolute value. -/
def flaggedClasses (drifts : List (String × DriftEntry)) (threshold : ℚ) :
    List (String × DriftEntry) :=
  drifts.filter (fun p => decide (threshold < |p.2.drift_pct|))

/-- Python's `"%.1f"` applied to an exact rational: round half-even to one
decimal and print sign, integer part, and one digit. -/
def fmt1 (q : ℚ) : String :=
  let n := roundHalfEven (q * 10)
  let m := n.natAbs
  (if n < 0 then "-" else "") ++ toString (m / 10) ++ "." ++ toString (m % 10)

/-- Python's `"%+.1f"`: as `fmt1` but with an explicit plus sign. -/
def fmt1Signed (q : ℚ) : String :=
  let n := roundHalfEven (q * 10)
  let m := n.natAbs
  (if n < 0 then "-" else "+") ++ toString (m / 10) ++ "." ++ toString (m % 10)

/-- The per-class fragment of the reason string. -/
def describeClass (p : String × DriftEntry) : String :=
  p.1 ++ " is " ++ (if 0 < p.2.drift_pct then "overweight" else "underweight") ++
    " at " ++ fmt1 p.2.actual_pct ++ "% (target " ++ fmt1 p.2.target_pct ++
    "%, drift " ++ fmt1Signed p.2.drift_pct ++ "%)"

/-- The synthesized human-readable reason. -/
def reasonFor (flagged : List (String × DriftEntry)) : String :=
  "Rebalancing required — " ++ String.intercalate "; " (flagged.map describeClass) ++ "."

/-- One element of the returned `recommendations` list. -/
structure Recommendation where
  portfolio_id : Nat
  portfolio_name : String
  total_value : ℚ
  flagged_classes : List (String × DriftEntry)
  reason : String
deriving DecidableEq, Repr, Inhabited

/-- One row inserted into `Rebalance_Log`. -/
structure LogRow where
  portfolio_id : Nat
  advisor_id : Nat
  rebalance_date : Int
  reason : String
  status : String
deriving DecidableEq, Repr, Inhabited

/-- The dict returned by `recommend_rebalance`, with the inserted log rows
kept alongside so the write side effect can be reasoned about. -/
structure RebalanceSummary where
  portfolios_analysed : Nat
  portfolios_flagged : Nat
  logs_written : Nat
  recommendations : List Recommendation
  logs : List LogRow
deriving DecidableEq, Repr

/-- One iteration of the `for portfolio_id, group in df.groupby(...)` loop:
`none` when the portfolio is skipped (zero total or nothing flagged),
otherwise the recommendation and the buffered log row. -/
def processPortfolio (rows : List AllocationRow) (amap : List (Nat × Nat))
    (today : Int) (threshold : ℚ) (pid : Nat) : Option (Recommendation × LogRow) :=
  let g := groupRows rows pid
  let total := totalValue g
  if total = 0 then none
  else
    let flagged := flaggedClasses (computeDrifts g total) threshold
    if flagged = [] then none
    else
      let reason := reasonFor flagged
      some ({ portfolio_id := pid,
              portfolio_name := (match g.head? with | none => "" | some r => r.portfolio_name),
              total_value := round2 total,
              flagged_classes := flagged,
              reason := reason },
            { portfolio_id := pid,
              advisor_id := lookupAdvisor amap pid,
              rebalance_date := today,
              reason := reason,
              status := "Pending" })

/-- The distinct portfolio ids in ascending order — the keys of
`df.groupby("portfolio_id")`. -/
def sortedPids (rows : List AllocationRow) : List Nat :=
  ((rows.map (fun r => r.portfolio_id)).dedup).insertionSort (fun a b => a ≤ b)

/-- The recommendation/log pairs produced by the main loop. -/
def rebalanceResults (rows : List AllocationRow) (arows : List AdvisorRow)
    (today : Int) (threshold : ℚ) : List (Recommendation × LogRow) :=
  (sortedPids rows).filterMap (processPortfolio rows (get_advisor_map arows) today threshold)

/-- `recommend_rebalance`: the whole engine on explicit inputs — the
allocation view's rows, the advisor query's rows, the current date, and the
threshold.  All inserts succeed, so `logs_written` counts the buffered rows. -/
def recommend_rebalance (rows : List AllocationRow) (arows : List AdvisorRow)
    (today : Int) (threshold : ℚ) : RebalanceSummary :=
  if rows.isEmpty then
    { portfolios_analysed := 0, portfolios_flagged := 0, logs_written := 0,
      recommendations := [], logs := [] }
  else
    { portfolios_analysed := ((rows.map (fun r => r.portfolio_id)).dedup).length,
      portfolios_flagged := ((rebalanceResults rows arows today threshold).map Prod.fst).length,
      logs_written := ((rebalanceResults rows arows today threshold).map Prod.snd).length,
      recommendations := (rebalanceResults rows arows today threshold).map Prod.fst,
      logs := (rebalanceResults rows arows today threshold).map Prod.snd }

lemma currentPct_eq_classSum (g : List AllocationRow) (total : ℚ) (ac : String)
    (hnd : (g.map (fun r => r.asset_class)).Nodup) :
    currentPct g total ac = classSum g ac / total * 100 := by
  induction g with
  | nil => simp [currentPct, classSum]
  | cons a l ih =>
    simp only [List.map_cons, List.nodup_cons, List.mem_map] at hnd
    by_cases hac : a.asset_class == ac
    · have hacc : a.asset_class = ac := by simpa using hac
      have hfl : l.filter (fun r => r.asset_class == ac) = [] := by
        rw [List.filter_eq_nil_iff]
        intro r hr hrac
        exact hnd.1 ⟨r, hr, by subst hacc; simpa using hrac⟩
      unfold currentPct classSum
      rw [List.filter_cons_of_pos (by simpa using hac), hfl]
      simp
    · unfold currentPct classSum
      rw [List.filter_cons_of_neg (by simpa using hac)]
      exact ih hnd.2

lemma currentPct_eq_zero_of_absent (g : List AllocationRow) (total : ℚ) (ac : String)
    (h : ∀ r ∈ g, r.asset_class ≠ ac) : currentPct g total ac = 0 := by
  have hfl : g.filter (fun r => r.asset_class == ac) = [] := by
    rw [List.filter_eq_nil_iff]
    intro r hr hrac
    exact h r hr (by simpa using hrac)
  unfold currentPct
  rw [hfl]
  rfl

lemma targets_even : ∀ p ∈ TARGET_ALLOCATIONS, ∃ m : ℤ, m % 2 = 0 ∧ p.2 = (m : ℚ)/100 := by
  intro p hp
  fin_cases hp
  · exact ⟨4000, by norm_num⟩
  · exact ⟨2500, by norm_num⟩
  · exact ⟨1500, by norm_num⟩
  · exact ⟨500, by norm_num⟩
  · exact ⟨500, by norm_num⟩
  · exact ⟨500, by norm_num⟩
  · exact ⟨500, by norm_num⟩

lemma processPortfolio_eq_some {rows : List AllocationRow} {amap : List (Nat × Nat)}
    {today : Int} {threshold : ℚ} {pid : Nat} {rec : Recommendation} {lrow : LogRow}
    (h : processPortfolio rows amap today threshold pid = some (rec, lrow)) :
    totalValue (groupRows rows pid) ≠ 0 ∧
    rec.portfolio_id = pid ∧
    rec.flagged_classes =
      flaggedClasses (computeDrifts (groupRows rows pid) (totalValue (groupRows rows pid))) threshold ∧
    rec.flagged_classes ≠ [] ∧
    rec.reason = reasonFor rec.flagged_classes ∧
    rec.total_value = round2 (totalValue (groupRows rows pid)) ∧
    lrow.portfolio_id = pid ∧
    lrow.advisor_id = lookupAdvisor amap pid ∧
    lrow.rebalance_date = today ∧
    lrow.reason = rec.reason ∧
    lrow.status = "Pending" := by
  unfold processPortfolio at h
  by_cases h0 : totalValue (groupRows rows pid) = 0
  · simp [h0] at h
  · rw [if_neg h0] at h
    by_cases h1 : flaggedClasses (computeDrifts (groupRows rows pid)
        (totalValue (groupRows rows pid))) threshold = []
    · simp [h1] at h
    · rw [if_neg h1] at h
      simp only [Option.some.injEq, Prod.mk.injEq] at h
      obtain ⟨hrec, hlog⟩ := h
      subst hrec
      subst hlog
      exact ⟨h0, rfl, rfl, h1, rfl, rfl, rfl, rfl, rfl, rfl, rfl⟩

lemma mem_recommendations_iff {rows : List AllocationRow} {arows : List AdvisorRow}
    {today : Int} {threshold : ℚ} {rec : Recommendation} :
    rec ∈ (recommend_rebalance rows arows today threshold).recommendations ↔
    ∃ pid ∈ sortedPids rows, ∃ lrow,
      processPortfolio rows (get_advisor_map arows) today threshold pid = some (rec, lrow) := by
  unfold recommend_rebalance
  by_cases h : rows.isEmpty
  · have hr : rows = [] := by simpa using h
    subst hr
    simp [sortedPids]
  · rw [if_neg h]
    simp only [rebalanceResults, List.mem_map, List.mem_filterMap]
    constructor
    · rintro ⟨⟨r, l⟩, ⟨pid, hpid, hproc⟩, hfst⟩
      cases hfst
      exact ⟨pid, hpid, l, hproc⟩
    · rintro ⟨pid, hpid, lrow, hproc⟩
      exact ⟨(rec, lrow), ⟨pid, hpid, hproc⟩, rfl⟩

lemma mem_logs_iff {rows : List AllocationRow} {arows : List AdvisorRow}
    {today : Int} {threshold : ℚ} {lrow : LogRow} :
    lrow ∈ (recommend_rebalance rows arows today threshold).logs ↔
    ∃ pid ∈ sortedPids rows, ∃ rec,
      processPortfolio rows (get_advisor_map arows) today threshold pid = some (rec, lrow) := by
  unfold recommend_rebalance
  by_cases h : rows.isEmpty
  · have hr : rows = [] := by simpa using h
    subst hr
    simp [sortedPids]
  · rw [if_neg h]
    simp only [rebalanceResults, List.mem_map, List.mem_filterMap]
    constructor
    · rintro ⟨⟨r, l⟩, ⟨pid, hpid, hproc⟩, hsnd⟩
      cases hsnd
      exact ⟨pid, hpid, r, hproc⟩
    · rintro ⟨pid, hpid, rec, hproc⟩
      exact ⟨(rec, lrow), ⟨pid, hpid, hproc⟩, rfl⟩

lemma sortedPids_nodup (rows : List AllocationRow) : (sortedPids rows).Nodup := by
  unfold sortedPids
  exact (List.perm_insertionSort _ _).symm.nodup (List.nodup_dedup _)

lemma filterMap_map_sublist {α β : Type} (g : β → α) (f : α → Option β) :
    ∀ l : List α, (∀ a b, f a = some b → g b = a) → ((l.filterMap f).map g).Sublist l := by
  intro l hfg
  induction l with
  | nil => simp
  | cons a l ih =>
    rw [List.filterMap_cons]
    cases hfa : f a with
    | none => exact (ih).cons a
    | some b =>
      rw [List.map_cons, hfg a b hfa]
      exact (ih).cons₂ a

lemma advisorMap_foldl_find_some (pid : Nat) (v : Nat × Nat) :
    ∀ (qrows : List AdvisorRow) (m : List (Nat × Nat)),
    m.find? (fun p => p.1 == pid) = some v →
    (qrows.foldl advisorMapStep m).find? (fun p => p.1 == pid) = some v := by
  intro qrows
  induction qrows with
  | nil => intro m h; simpa using h
  | cons r t ih =>
    intro m h
    rw [List.foldl_cons]
    apply ih
    unfold advisorMapStep
    by_cases hin : (m.find? (fun p => p.1 == r.portfolio_id)).isSome
    · rw [if_pos hin]; exact h
    · rw [if_neg hin, List.find?_append, h]; rfl

lemma advisorMap_foldl_find_none (pid : Nat) :
    ∀ (qrows : List AdvisorRow) (m : List (Nat × Nat)),
    m.find? (fun p => p.1 == pid) = none →
    (qrows.foldl advisorMapStep m).find? (fun p => p.1 == pid) =
      (qrows.find? (fun r => r.portfolio_id == pid)).map (fun r => (r.portfolio_id, r.advisor_id)) := by
  intro qrows
  induction qrows with
  | nil => intro m h; simpa using h
  | cons r t ih =>
    intro m h
    rw [List.foldl_cons]
    by_cases hr : r.portfolio_id == pid
    · have hrp : r.portfolio_id = pid := by simpa using hr
      have hmr : m.find? (fun p => p.1 == r.portfolio_id) = none := by rw [hrp]; exact h
      have hstep : advisorMapStep m r = m ++ [(r.portfolio_id, r.advisor_id)] := by
        unfold advisorMapStep
        rw [if_neg (by rw [hmr]; simp)]
      have hfind : ((m ++ [(r.portfolio_id, r.advisor_id)]).find? (fun p => p.1 == pid))
          = some (r.portfolio_id, r.advisor_id) := by
        rw [List.find?_append, h]
        simp [hr]
      have hcons : List.find? (fun x => x.portfolio_id == pid) (r :: t) = some r := by
        simp [List.find?, hr]
      rw [hstep, advisorMap_foldl_find_some pid _ t _ hfind, hcons]
      rfl
    · have hstep : (advisorMapStep m r).find? (fun p => p.1 == pid) = none := by
        unfold advisorMapStep
        by_cases hin : (m.find? (fun p => p.1 == r.portfolio_id)).isSome
        · rw [if_pos hin]; exact h
        · rw [if_neg hin, List.find?_append, h]
          simp [hr]
      have hcons : List.find? (fun x => x.portfolio_id == pid) (r :: t) =
          List.find? (fun x => x.portfolio_id == pid) t := by
        simp [List.find?, hr]
      rw [ih _ hstep, hcons]

lemma lookupAdvisor_get_advisor_map (qrows : List AdvisorRow) (pid : Nat) :
    lookupAdvisor (get_advisor_map qrows) pid =
      match qrows.find? (fun r => r.portfolio_id == pid) with
      | none => 1
      | some r => r.advisor_id := by
  unfold lookupAdvisor get_advisor_map
  rw [advisorMap_foldl_find_none pid qrows [] (by simp)]
  cases qrows.find? (fun r => r.portfolio_id == pid) <;> rfl

lemma find?_primary_of_sorted (qrows : List AdvisorRow) (pid : Nat)
    (hs : qrows.Pairwise advisorRowLE) :
    ∀ r' ∈ qrows, r'.portfolio_id = pid → r'.is_primary = true →
    ∃ r, qrows.find? (fun x => x.portfolio_id == pid) = some r ∧
      r.portfolio_id = pid ∧ r.is_primary = true := by
  induction qrows with
  | nil => intro r' h; simp at h
  | cons a t ih =>
    intro r' hr' hpid hprim
    by_cases ha : a.portfolio_id == pid
    · have hapid : a.portfolio_id = pid := by simpa using ha
      refine ⟨a, List.find?_cons_of_pos _ ha, hapid, ?_⟩
      rcases List.mem_cons.mp hr' with h1 | h1
      · subst h1; exact hprim
      · have hle := (List.pairwise_cons.mp hs).1 r' h1
        rcases hle with hlt | ⟨heq, himp⟩
        · rw [hapid, hpid] at hlt
          exact absurd hlt (lt_irrefl _)
        · exact himp hprim
    · have h1 : r' ∈ t := by
        rcases List.mem_cons.mp hr' with h | h
        · subst h; rw [hpid] at ha; simp at ha
        · exact h
      obtain ⟨r, hfind, hrp, hprimr⟩ := ih (List.pairwise_cons.mp hs).2 r' h1 hpid hprim
      refine ⟨r, ?_, hrp, hprimr⟩
      have hcons : List.find? (fun x => x.portfolio_id == pid) (a :: t) =
          List.find? (fun x => x.portfolio_id == pid) t := by
        simp [List.find?, ha]
      rw [hcons]
      exact hfind

lemma find?_pid_exists {qrows : List AdvisorRow} {pid : Nat}
    (h : ∃ r ∈ qrows, r.portfolio_id = pid) :
    ∃ r, qrows.find? (fun x => x.portfolio_id == pid) = some r ∧
      r ∈ qrows ∧ r.portfolio_id = pid := by
  have hsome : (qrows.find? (fun x => x.portfolio_id == pid)).isSome := by
    rw [List.find?_isSome]
    obtain ⟨r, hr, hp⟩ := h
    exact ⟨r, hr, by simpa using hp⟩
  obtain ⟨r, hr⟩ := Option.isSome_iff_exists.mp hsome
  exact ⟨r, hr, List.mem_of_find?_eq_some hr, by simpa using List.find?_some hr⟩

/-- The spec's worked scenario: one portfolio holding Equity 6000 and ETF 4000. -/
def sampleRows : List AllocationRow :=
  [⟨1, "Growth", "Equity", 6000⟩, ⟨1, "Growth", "ETF", 4000⟩]

/-- C1: for every portfolio with nonzero total value, the drift dict has an
entry for each of the seven target classes in order; an absent class gets
actual_pct 0; actual_pct is the class share of total value times 100 rounded
to 2 decimals, and drift_pct is actual_pct minus target_pct rounded to 2
decimals.  The allocation view yields at most one row per (portfolio,
class), stated as the Nodup hypothesis. -/
theorem C1_drift_entries (rows : List AllocationRow) (pid : Nat)
    (htot : totalValue (groupRows rows pid) ≠ 0)
    (hnd : ((groupRows rows pid).map (fun r => r.asset_class)).Nodup) :
    (computeDrifts (groupRows rows pid) (totalValue (groupRows rows pid))).map Prod.fst
        = ["Equity", "ETF", "Fixed Income", "Crypto", "Real Estate", "Commodity", "Other"] ∧
    ∀ p ∈ TARGET_ALLOCATIONS, ∃ e : DriftEntry,
      (p.1, e) ∈ computeDrifts (groupRows rows pid) (totalValue (groupRows rows pid)) ∧
      e.target_pct = p.2 ∧
      e.actual_pct = round2 (classSum (groupRows rows pid) p.1
        / totalValue (groupRows rows pid) * 100) ∧
      e.drift_pct = round2 (e.actual_pct - p.2) ∧
      ((∀ r ∈ groupRows rows pid, r.asset_class ≠ p.1) → e.actual_pct = 0) := by
  refine ⟨rfl, ?_⟩
  intro p hp
  obtain ⟨m, hm2, hmv⟩ := targets_even p hp
  refine ⟨driftEntryFor (groupRows rows pid) (totalValue (groupRows rows pid)) p.1 p.2,
    List.mem_map_of_mem _ hp, ?_, ?_, ?_, ?_⟩
  · show round2 p.2 = p.2
    rw [hmv]
    exact round2_intCast_div m
  · show round2 (currentPct (groupRows rows pid) (totalValue (groupRows rows pid)) p.1) = _
    rw [currentPct_eq_classSum _ _ _ hnd]
  · show round2 (currentPct (groupRows rows pid) (totalValue (groupRows rows pid)) p.1 - p.2)
        = round2 (round2 (currentPct (groupRows rows pid) (totalValue (groupRows rows pid)) p.1) - p.2)
    rw [hmv, round2_sub_div100 _ m hm2, round2_sub_div100 _ m hm2, round2_round2]
  · intro habsent
    show round2 (currentPct (groupRows rows pid) (totalValue (groupRows rows pid)) p.1) = 0
    rw [currentPct_eq_zero_of_absent _ _ _ habsent, round2_zero]

theorem C1_drift_entries_witness :
    (computeDrifts (groupRows sampleRows 1) (totalValue (groupRows sampleRows 1))).map Prod.fst
      = ["Equity", "ETF", "Fixed Income", "Crypto", "Real Estate", "Commodity", "Other"] :=
  (C1_drift_entries sampleRows 1 (by decide) (by decide)).1

/-- C2: a class is flagged iff its stored (rounded) drift strictly exceeds
the threshold in absolute value; a drift exactly at the threshold is not
flagged, one at threshold + 0.01 is. -/
theorem C2_threshold_strict (rows : List AllocationRow) (arows : List AdvisorRow)
    (today : Int) (threshold : ℚ) :
    (∀ rec ∈ (recommend_rebalance rows arows today threshold).recommendations,
      (∀ p ∈ rec.flagged_classes, threshold < |p.2.drift_pct|) ∧
      (∀ p ∈ computeDrifts (groupRows rows rec.portfolio_id)
          (totalValue (groupRows rows rec.portfolio_id)),
        threshold < |p.2.drift_pct| → p ∈ rec.flagged_classes)) ∧
    (∀ (d : List (String × DriftEntry)), ∀ p ∈ d,
      (|p.2.drift_pct| = threshold → p ∉ flaggedClasses d threshold) ∧
      (p.2.drift_pct = threshold + 1/100 → p ∈ flaggedClasses d threshold)) := by
  constructor
  · intro rec hrec
    obtain ⟨pid, hpid, lrow, hproc⟩ := mem_recommendations_iff.mp hrec
    obtain ⟨h0, hrpid, hflag, hne, hreason, htv, hrest⟩ := processPortfolio_eq_some hproc
    constructor
    · intro p hp
      rw [hflag] at hp
      have := (List.mem_filter.mp hp).2
      exact of_decide_eq_true this
    · intro p hpd hlt
      rw [hrpid] at hpd
      rw [hflag]
      exact List.mem_filter.mpr ⟨hpd, decide_eq_true hlt⟩
  · intro d p hp
    constructor
    · intro heq hmem
      have := of_decide_eq_true (List.mem_filter.mp hmem).2
      rw [heq] at this
      exact lt_irrefl _ this
    · intro heq
      refine List.mem_filter.mpr ⟨hp, decide_eq_true ?_⟩
      rw [heq]
      have h1 : threshold < threshold + 1/100 := by linarith
      exact lt_of_lt_of_le h1 (le_abs_self _)

theorem C2_threshold_strict_witness :
    ("Equity", DriftEntry.mk 40 50 10) ∉
      flaggedClasses [("Equity", DriftEntry.mk 40 50 10)] 10 :=
  ((C2_threshold_strict [] [] 0 10).2 [("Equity", DriftEntry.mk 40 50 10)]
    ("Equity", DriftEntry.mk 40 50 10) (by decide)).1 (by decide)

/-- A portfolio whose single allocation row carries value 0. -/
def zeroRows : List AllocationRow := [⟨1, "Empty", "Equity", 0⟩]

/-- C3: a portfolio whose class values sum to 0 is skipped: it never appears
among the recommendations and no log row is written for it (the guard fires
before any division). -/
theorem C3_zero_total (rows : List AllocationRow) (arows : List AdvisorRow)
    (today : Int) (threshold : ℚ) (pid : Nat)
    (h : totalValue (groupRows rows pid) = 0) :
    (∀ rec ∈ (recommend_rebalance rows arows today threshold).recommendations,
      rec.portfolio_id ≠ pid) ∧
    (∀ lrow ∈ (recommend_rebalance rows arows today threshold).logs,
      lrow.portfolio_id ≠ pid) := by
  constructor
  · intro rec hrec heq
    obtain ⟨pid', hpid', lrow, hproc⟩ := mem_recommendations_iff.mp hrec
    obtain ⟨h0, hrpid, hrest⟩ := processPortfolio_eq_some hproc
    apply h0
    rw [hrpid.symm.trans heq]
    exact h
  · intro lrow hlrow heq
    obtain ⟨pid', hpid', rec, hproc⟩ := mem_logs_iff.mp hlrow
    obtain ⟨h0, hrpid, hflag, hne, hreason, htv, hlpid, hrest⟩ := processPortfolio_eq_some hproc
    apply h0
    rw [hlpid.symm.trans heq]
    exact h

theorem C3_zero_total_witness :
    (∀ rec ∈ (recommend_rebalance zeroRows [] 0 10).recommendations,
      rec.portfolio_id ≠ 1) ∧
    (∀ lrow ∈ (recommend_rebalance zeroRows [] 0 10).logs,
      lrow.portfolio_id ≠ 1) :=
  C3_zero_total zeroRows [] 0 10 1 (by decide)

/-- C4: over the active, (portfolio id, primary-first)-ordered assignment
rows, the resolver returns a primary assignment's advisor when one exists
for the portfolio, otherwise some active assignment's advisor; a portfolio
with no assignment rows resolves to the default advisor 1, and any log row
written for it carries advisor_id 1. -/
theorem C4_advisor_resolution (qrows : List AdvisorRow) (today : Int) (pid : Nat)
    (hactive : ∀ r ∈ qrows, isActive today r = true)
    (hsorted : qrows.Pairwise advisorRowLE) :
    ((∃ r ∈ qrows, r.portfolio_id = pid ∧ r.is_primary = true) →
      ∃ r ∈ qrows, r.portfolio_id = pid ∧ r.is_primary = true ∧ isActive today r = true ∧
        lookupAdvisor (get_advisor_map qrows) pid = r.advisor_id) ∧
    ((∃ r ∈ qrows, r.portfolio_id = pid) →
      ∃ r ∈ qrows, r.portfolio_id = pid ∧ isActive today r = true ∧
        lookupAdvisor (get_advisor_map qrows) pid = r.advisor_id) ∧
    ((∀ r ∈ qrows, r.portfolio_id ≠ pid) →
      lookupAdvisor (get_advisor_map qrows) pid = 1 ∧
      ∀ (rows : List AllocationRow) (threshold : ℚ),
        ∀ lrow ∈ (recommend_rebalance rows qrows today threshold).logs,
          lrow.portfolio_id = pid → lrow.advisor_id = 1) := by
  refine ⟨?_, ?_, ?_⟩
  · rintro ⟨r', hr', hpid', hprim'⟩
    obtain ⟨r, hfind, hrpid, hrprim⟩ :=
      find?_primary_of_sorted qrows pid hsorted r' hr' hpid' hprim'
    have hmem : r ∈ qrows := List.mem_of_find?_eq_some hfind
    refine ⟨r, hmem, hrpid, hrprim, hactive r hmem, ?_⟩
    rw [lookupAdvisor_get_advisor_map, hfind]
  · rintro ⟨r', hr', hpid'⟩
    obtain ⟨r, hfind, hmem, hrpid⟩ := find?_pid_exists ⟨r', hr', hpid'⟩
    refine ⟨r, hmem, hrpid, hactive r hmem, ?_⟩
    rw [lookupAdvisor_get_advisor_map, hfind]
  · intro hnone
    have hfind : qrows.find? (fun x => x.portfolio_id == pid) = none := by
      rw [List.find?_eq_none]
      intro r hr hbeq
      exact hnone r hr (by simpa using hbeq)
    have hlk : lookupAdvisor (get_advisor_map qrows) pid = 1 := by
      rw [lookupAdvisor_get_advisor_map, hfind]
    refine ⟨hlk, ?_⟩
    intro rows threshold lrow hlrow hlpid
    obtain ⟨pid', hpid', rec, hproc⟩ := mem_logs_iff.mp hlrow
    obtain ⟨h0, hrpid, hflag, hne, hreason, htv, hlp, hla, hrest⟩ :=
      processPortfolio_eq_some hproc
    rw [hla, hlp.symm.trans hlpid, hlk]

/-- Advisor rows for the C4 witness: portfolio 1 has a lone non-primary
active assignment, portfolio 2 has a primary and a non-primary one. -/
def w4rows : List AdvisorRow :=
  [⟨1, 7, false, none⟩, ⟨2, 9, true, some 5⟩, ⟨2, 8, false, none⟩]

theorem C4_advisor_resolution_witness :
    ∃ r ∈ w4rows, r.portfolio_id = 2 ∧ r.is_primary = true ∧ isActive 3 r = true ∧
      lookupAdvisor (get_advisor_map w4rows) 2 = r.advisor_id :=
  (C4_advisor_resolution w4rows 3 2 (by decide) (by decide)).1
    ⟨⟨2, 9, true, some 5⟩, by decide, rfl, rfl⟩

/-- C5: each portfolio id appears at most once among the returned
recommendations, and every returned recommendation has a non-empty
flagged-classes mapping. -/
theorem C5_unique_nonempty (rows : List AllocationRow) (arows : List AdvisorRow)
    (today : Int) (threshold : ℚ) :
    ((recommend_rebalance rows arows today threshold).recommendations.map
        (fun rec => rec.portfolio_id)).Nodup ∧
    ∀ rec ∈ (recommend_rebalance rows arows today threshold).recommendations,
      rec.flagged_classes ≠ [] := by
  constructor
  · unfold recommend_rebalance
    by_cases h : rows.isEmpty
    · rw [if_pos h]
      simp
    · rw [if_neg h]
      simp only [List.map_map]
      unfold rebalanceResults
      have hside : ∀ (a : Nat) (b : Recommendation × LogRow),
          processPortfolio rows (get_advisor_map arows) today threshold a = some b →
          b.1.portfolio_id = a := by
        intro a b hfb
        obtain ⟨rec, lrow⟩ := b
        exact (processPortfolio_eq_some hfb).2.1
      have hsub := filterMap_map_sublist
        (fun pr : Recommendation × LogRow => pr.1.portfolio_id)
        (processPortfolio rows (get_advisor_map arows) today threshold)
        (sortedPids rows) hside
      exact hsub.nodup (sortedPids_nodup rows)
  · intro rec hrec
    obtain ⟨pid, hpid, lrow, hproc⟩ := mem_recommendations_iff.mp hrec
    exact (processPortfolio_eq_some hproc).2.2.2.1

theorem C5_unique_nonempty_witness :
    ((recommend_rebalance sampleRows [] 0 10).recommendations.map
        (fun rec => rec.portfolio_id)).Nodup ∧
    ((recommend_rebalance sampleRows [] 0 10).recommendations.getD 0 default).flagged_classes
        ≠ [] :=
  ⟨(C5_unique_nonempty sampleRows [] 0 10).1,
   (C5_unique_nonempty sampleRows [] 0 10).2 _ (by decide)⟩

/-- Rendering of a stored value to exactly two decimal places, used to state
the claim's reading of the reason string ("cites the stored 2-decimal
rounded values") for comparison with the code's one-decimal rendering. -/
def fmt2 (q : ℚ) : String :=
  let n := roundHalfEven (q * 100)
  let m := n.natAbs
  (if n < 0 then "-" else "") ++ toString (m / 100) ++ "." ++
    toString (m / 10 % 10) ++ toString (m % 10)

/-- As `fmt2` but with an explicit plus sign, the claim's reading of the
signed drift citation. -/
def fmt2Signed (q : ℚ) : String :=
  let n := roundHalfEven (q * 100)
  let m := n.natAbs
  (if n < 0 then "-" else "+") ++ toString (m / 100) ++ "." ++
    toString (m / 10 % 10) ++ toString (m % 10)

/-- The claim's reading of the per-class fragment: two-decimal citations. -/
def describeClassTwoDecimals (p : String × DriftEntry) : String :=
  p.1 ++ " is " ++ (if 0 < p.2.drift_pct then "overweight" else "underweight") ++
    " at " ++ fmt2 p.2.actual_pct ++ "% (target " ++ fmt2 p.2.target_pct ++
    "%, drift " ++ fmt2Signed p.2.drift_pct ++ "%)"

/-- The claim's reading of the whole reason string. -/
def reasonTwoDecimals (flagged : List (String × DriftEntry)) : String :=
  "Rebalancing required — " ++
    String.intercalate "; " (flagged.map describeClassTwoDecimals) ++ "."

/-- A portfolio with Equity 2 and ETF 1: Equity's stored actual_pct is
66.67, whose second decimal is lost by the `%.1f` rendering. -/
def thirdsRows : List AllocationRow :=
  [⟨1, "Thirds", "Equity", 2⟩, ⟨1, "Thirds", "ETF", 1⟩]

/-- C6 counterexample: the reason string does not cite the stored 2-decimal
values — for Equity at actual_pct 66.67 it prints "66.7". -/
theorem C6_counterexample :
    ¬ ∀ rec ∈ (recommend_rebalance thirdsRows [] 0 10).recommendations,
        rec.reason = reasonTwoDecimals rec.flagged_classes := by
  decide

/-- C6 (amended): the reason string describes each flagged class as
overweight when its stored drift is positive and underweight otherwise,
citing the stored rounded values rendered to ONE decimal place (`%.1f`),
joined with "; ", prefixed "Rebalancing required — " and suffixed ".". -/
theorem C6_reason_format (rows : List AllocationRow) (arows : List AdvisorRow)
    (today : Int) (threshold : ℚ) :
    ∀ rec ∈ (recommend_rebalance rows arows today threshold).recommendations,
      rec.reason = "Rebalancing required — " ++
        String.intercalate "; " (rec.flagged_classes.map (fun p =>
          p.1 ++ " is " ++ (if 0 < p.2.drift_pct then "overweight" else "underweight") ++
          " at " ++ fmt1 p.2.actual_pct ++ "% (target " ++ fmt1 p.2.target_pct ++
          "%, drift " ++ fmt1Signed p.2.drift_pct ++ "%)")) ++ "." := by
  intro rec hrec
  obtain ⟨pid, hpid, lrow, hproc⟩ := mem_recommendations_iff.mp hrec
  exact (processPortfolio_eq_some hproc).2.2.2.2.1

theorem C6_reason_format_witness :
    ((recommend_rebalance thirdsRows [] 0 10).recommendations.getD 0 default).reason =
      "Rebalancing required — " ++
        String.intercalate "; "
          ((((recommend_rebalance thirdsRows [] 0 10).recommendations.getD 0
              default).flagged_classes).map (fun p =>
            p.1 ++ " is " ++ (if 0 < p.2.drift_pct then "overweight" else "underweight") ++
            " at " ++ fmt1 p.2.actual_pct ++ "% (target " ++ fmt1 p.2.target_pct ++
            "%, drift " ++ fmt1Signed p.2.drift_pct ++ "%)")) ++ "." :=
  C6_reason_format thirdsRows [] 0 10 _ (by decide)

/-- C7: one log row is buffered per flagged recommendation (the id sequences
agree), every log row has status "Pending" and the current date, and the
reported write count equals the number of flagged portfolios. -/
theorem C7_log_rows (rows : List AllocationRow) (arows : List AdvisorRow)
    (today : Int) (threshold : ℚ) :
    (recommend_rebalance rows arows today threshold).logs_written
        = (recommend_rebalance rows arows today threshold).recommendations.length ∧
    (recommend_rebalance rows arows today threshold).portfolios_flagged
        = (recommend_rebalance rows arows today threshold).recommendations.length ∧
    (recommend_rebalance rows arows today threshold).logs.map (fun l => l.portfolio_id)
        = (recommend_rebalance rows arows today threshold).recommendations.map
            (fun r => r.portfolio_id) ∧
    ∀ lrow ∈ (recommend_rebalance rows arows today threshold).logs,
      lrow.status = "Pending" ∧ lrow.rebalance_date = today := by
  refine ⟨?_, ?_, ?_, ?_⟩
  · unfold recommend_rebalance
    by_cases h : rows.isEmpty
    · rw [if_pos h]
      rfl
    · rw [if_neg h]
      simp
  · unfold recommend_rebalance
    by_cases h : rows.isEmpty
    · rw [if_pos h]
      rfl
    · rw [if_neg h]
  · unfold recommend_rebalance
    by_cases h : rows.isEmpty
    · rw [if_pos h]
      rfl
    · rw [if_neg h]
      simp only [List.map_map]
      unfold rebalanceResults
      apply List.map_congr_left
      intro pr hpr
      obtain ⟨pid, hpid, hproc⟩ := List.mem_filterMap.mp hpr
      obtain ⟨rec, lrow⟩ := pr
      obtain ⟨h0, hrpid, hflag, hne, hreason, htv, hlpid, hrest⟩ :=
        processPortfolio_eq_some hproc
      show lrow.portfolio_id = rec.portfolio_id
      rw [hlpid, hrpid]
  · intro lrow hlrow
    obtain ⟨pid, hpid, rec, hproc⟩ := mem_logs_iff.mp hlrow
    obtain ⟨h0, hrpid, hflag, hne, hreason, htv, hlpid, hladv, hldate, hlreason, hlstat⟩ :=
      processPortfolio_eq_some hproc
    exact ⟨hlstat, hldate⟩

theorem C7_log_rows_witness :
    ((recommend_rebalance sampleRows [] 5 10).logs.getD 0 default).status = "Pending" ∧
    ((recommend_rebalance sampleRows [] 5 10).logs.getD 0 default).rebalance_date = 5 :=
  (C7_log_rows sampleRows [] 5 10).2.2.2 _ (by decide)

/-- C8: with no allocation rows at all, the engine returns the all-zero
summary with no recommendations and writes nothing. -/
theorem C8_empty_allocations (arows : List AdvisorRow) (today : Int) (threshold : ℚ) :
    recommend_rebalance [] arows today threshold =
      { portfolios_analysed := 0, portfolios_flagged := 0, logs_written := 0,
        recommendations := [], logs := [] } := rfl

/-- C9: the computation is a pure function of the allocation rows, the
advisor rows, the current date and the threshold — two runs on identical
inputs produce identical flagged classes, reasons, and summaries. -/
theorem C9_deterministic (rows : List AllocationRow) (arows : List AdvisorRow)
    (today : Int) (threshold : ℚ) (s1 s2 : RebalanceSummary)
    (h1 : s1 = recommend_rebalance rows arows today threshold)
    (h2 : s2 = recommend_rebalance rows arows today threshold) :
    s1.recommendations.map (fun r => r.flagged_classes)
        = s2.recommendations.map (fun r => r.flagged_classes) ∧
    s1.recommendations.map (fun r => r.reason)
        = s2.recommendations.map (fun r => r.reason) ∧
    s1 = s2 := by
  subst h1
  subst h2
  exact ⟨rfl, rfl, rfl⟩

theorem C9_deterministic_witness :
    (recommend_rebalance sampleRows [] 0 10).recommendations.map (fun r => r.reason)
      = (recommend_rebalance sampleRows [] 0 10).recommendations.map (fun r => r.reason) :=
  (C9_deterministic sampleRows [] 0 10 _ _ rfl rfl).2.1

/-- A portfolio holding an asset class outside the seven targets. -/
def w10rows : List AllocationRow :=
  [⟨1, "Mixed", "Equity", 700⟩, ⟨1, "Mixed", "Junk", 300⟩]

/-- C10: rows with a non-canonical asset class count towards the portfolio's
total value but never get a drift entry: drift keys are exactly the seven
target names, so flagged keys are always among them. -/
theorem C10_unknown_classes (rows : List AllocationRow) (arows : List AdvisorRow)
    (today : Int) (threshold : ℚ) :
    (∀ rec ∈ (recommend_rebalance rows arows today threshold).recommendations,
      (∀ p ∈ rec.flagged_classes, p.1 ∈ TARGET_ALLOCATIONS.map Prod.fst) ∧
      rec.total_value = round2 (totalValue (groupRows rows rec.portfolio_id))) ∧
    ∀ (g : List AllocationRow) (total : ℚ),
      (computeDrifts g total).map Prod.fst = TARGET_ALLOCATIONS.map Prod.fst := by
  constructor
  · intro rec hrec
    obtain ⟨pid, hpid, lrow, hproc⟩ := mem_recommendations_iff.mp hrec
    obtain ⟨h0, hrpid, hflag, hne, hreason, htv, hrest⟩ := processPortfolio_eq_some hproc
    constructor
    · intro p hp
      rw [hflag] at hp
      have hmem := (List.mem_filter.mp hp).1
      obtain ⟨q, hq, hpq⟩ := List.mem_map.mp hmem
      rw [← hpq]
      exact List.mem_map_of_mem _ hq
    · rw [htv, hrpid]
  · intro g total
    rfl

theorem C10_unknown_classes_witness :
    ((recommend_rebalance w10rows [] 0 10).recommendations.getD 0 default).total_value =
      round2 (totalValue (groupRows w10rows
        ((recommend_rebalance w10rows [] 0 10).recommendations.getD 0
          default).portfolio_id)) :=
  ((C10_unknown_classes w10rows [] 0 10).1 _ (by decide)).2
